import Mathlib

/-!
Shallow embedding of the FlaskJobTracker application (src/app/app.py).

The persistence store is modelled as a `List Job` kept in insertion order
(SQLite assigns rowids in insertion order; `ORDER BY application_date DESC`
over such a table is modelled as a stable descending sort, which also
realises the spec's tie-breaking by insertion order).  Dates and timestamps
are modelled as `Nat` ordinals; only their ordering matters to the code.
Form submissions carry the raw WTForms field data: `Option` for the parsed
date field (`none` = missing/unparseable) and for nullable text fields.
-/

namespace JobTracker

/-- One row of the `Job` table (class `Job` in app.py). -/
structure Job where
  id : Nat
  application_date : Nat
  status : String
  company : String
  position : String
  resume_used : String
  job_url : Option String
  job_description : Option String
  notes : Option String
  salary : Option String
  created_at : Nat
deriving Repr, DecidableEq

/-- The data a POSTed `JobForm` carries (class `JobForm` in app.py). -/
structure Submission where
  application_date : Option Nat
  status : String
  company : String
  position : String
  resume_used : String
  job_url : Option String
  job_description : Option String
  notes : Option String
  salary : Option String
deriving Repr, DecidableEq

/-- `STATUS_CHOICES` from app.py: (value, label) pairs of the status select field. -/
def STATUS_CHOICES : List (String × String) :=
  [("Waiting for Response", "Waiting for Response"),
   ("Interviewing", "Interviewing"),
   ("Rejected Application", "Rejected Application"),
   ("Ghosted Application", "Ghosted Application")]

/-- `RESUME_CHOICES` from app.py. -/
def RESUME_CHOICES : List (String × String) :=
  [("Default Resume", "Default Resume")]

/-- The submittable values of the status select field. -/
def statusValues : List String := STATUS_CHOICES.map Prod.fst

/-- The submittable values of the resume select field. -/
def resumeValues : List String := RESUME_CHOICES.map Prod.fst

/-- Leading- and trailing-whitespace strip (Python's `str.strip()`, which
WTForms `DataRequired` applies to string data), computed on the character
list. -/
def strip (s : String) : String :=
  ⟨(((s.data.dropWhile Char.isWhitespace).reverse.dropWhile
      Char.isWhitespace).reverse)⟩

/-- WTForms `DataRequired` on a string field: fails on empty or
whitespace-only data. -/
def dataRequired (s : String) : Bool := !(strip s == "")

/-- `JobForm.validate` as configured in app.py: `application_date` has
`DataRequired` (a `DateField` with no parsed value fails); `status` is a
`SelectField`, whose built-in choice check restricts it to
`STATUS_CHOICES`; `company` and `position` have `DataRequired`;
`resume_used` is a `SelectField` over `RESUME_CHOICES` with `DataRequired`;
the remaining fields are `Optional`. -/
def validateJobForm (sub : Submission) : Bool :=
  sub.application_date.isSome &&
  statusValues.contains sub.status &&
  dataRequired sub.company &&
  dataRequired sub.position &&
  (dataRequired sub.resume_used && resumeValues.contains sub.resume_used)

/-- SQLite integer-primary-key assignment: one more than the largest id in
the table (ids are never reused; no delete operation exists). -/
def nextId (store : List Job) : Nat :=
  store.foldr (fun j m => max j.id m) 0 + 1

/-- `Job.query.get(job_id)`: primary-key lookup. -/
def getById (store : List Job) (job_id : Nat) : Option Job :=
  store.find? (fun j => j.id == job_id)

/-- Ordering used by `Job.query.order_by(Job.application_date.desc())`:
`jobGE a b` says `a` sorts no later than `b` in the descending list. -/
def jobGE (a b : Job) : Prop := b.application_date ≤ a.application_date

instance : DecidableRel jobGE :=
  fun a b => inferInstanceAs (Decidable (b.application_date ≤ a.application_date))

instance : IsTotal Job jobGE :=
  ⟨fun a b => Nat.le_total b.application_date a.application_date⟩

instance : IsTrans Job jobGE :=
  ⟨fun _ _ _ h1 h2 => le_trans h2 h1⟩

/-- The store ordered by `application_date` descending.  Insertion sort with
the non-strict descending relation is stable, so rows with equal dates keep
their insertion (rowid) order, matching the SQLite table scan. -/
def sortJobs (store : List Job) : List Job :=
  List.insertionSort jobGE store

/-- Per-status counts of the dashboard (`statuses` dict built in `home`):
iterate over `STATUS_CHOICES`, count rows with that status, and keep only
statuses with a positive count. -/
def statuses (store : List Job) : List (String × Nat) :=
  statusValues.filterMap (fun s =>
    let count := (store.filter (fun j => j.status == s)).length
    if count > 0 then some (s, count) else none)

/-- The data `home` hands to `dashboard.html`. -/
structure Dashboard where
  total_jobs : Nat
  recent_jobs : List Job
  status_counts : List (String × Nat)
deriving Repr, DecidableEq

/-- Handler `home` (GET `/`): total count, the five most recent rows by
`application_date` descending, and the per-status counts. -/
def home (store : List Job) : Dashboard :=
  { total_jobs := store.length
  , recent_jobs := (sortJobs store).take 5
  , status_counts := statuses store }

/-- Handler `jobs` (GET `/jobs`).  `request.args.get` yields `none` when the
parameter is absent; Python's `if status_filter:` is false both for `None`
and for the empty string, so the filter branch runs only for a non-empty
value. -/
def jobs (store : List Job) (status_filter : Option String) : List Job :=
  match status_filter with
  | some s =>
      if s = "" then sortJobs store
      else sortJobs (store.filter (fun j => j.status == s))
  | none => sortJobs store

/-- Outcome of `add_job` (POST `/add-job`). -/
inductive AddResponse where
  | redirectToJobs
  | renderAddForm
deriving Repr, DecidableEq

/-- The `Job(...)` constructor call inside `add_job`: a fresh row built from
the submitted form data, with a fresh id and `created_at` set server-side
to the current timestamp `now`. -/
def newJobOf (store : List Job) (now : Nat) (sub : Submission) : Job :=
  { id := nextId store
  , application_date := sub.application_date.getD 0
  , status := sub.status
  , company := sub.company
  , position := sub.position
  , resume_used := sub.resume_used
  , job_url := sub.job_url
  , job_description := sub.job_description
  , notes := sub.notes
  , salary := sub.salary
  , created_at := now }

/-- Handler `add_job` (POST `/add-job`): on a valid form, insert a new row
(fresh id, `created_at` set to the current timestamp `now`) and redirect to
the jobs list; otherwise re-render the form and leave the store unchanged. -/
def add_job (store : List Job) (now : Nat) (sub : Submission) :
    List Job × AddResponse :=
  if validateJobForm sub then
    (store ++ [newJobOf store now sub], AddResponse.redirectToJobs)
  else
    (store, AddResponse.renderAddForm)

/-- Outcome of `job_details` (GET `/job/<id>`). -/
inductive DetailsResponse where
  | showJob (job : Job)
  | notFound404
deriving Repr, DecidableEq

/-- Handler `job_details` (GET `/job/<id>`): `get_or_404`. -/
def job_details (store : List Job) (job_id : Nat) : DetailsResponse :=
  match getById store job_id with
  | some job => DetailsResponse.showJob job
  | none => DetailsResponse.notFound404

/-- The field assignments of the edit branch of `job_edit`: overwrite the
nine form-backed fields, keeping `id` and `created_at`. -/
def applyForm (job : Job) (sub : Submission) : Job :=
  { job with
      application_date := sub.application_date.getD 0
    , status := sub.status
    , company := sub.company
    , position := sub.position
    , resume_used := sub.resume_used
    , job_url := sub.job_url
    , job_description := sub.job_description
    , notes := sub.notes
    , salary := sub.salary }

/-- Overwrite the row `get_or_404` fetched (the first row with the given
id) with the submitted fields; all other rows are untouched. -/
def updateFirst : List Job → Nat → Submission → List Job
  | [], _, _ => []
  | j :: rest, job_id, sub =>
      if j.id = job_id then applyForm j sub :: rest
      else j :: updateFirst rest job_id sub

/-- Outcome of `job_edit` (GET/POST `/job/<id>/edit`). -/
inductive EditResponse where
  | redirectToDetails (job_id : Nat)
  | renderEditForm
  | notFound404
deriving Repr, DecidableEq

/-- Handler `job_edit`: `get_or_404` first; on a valid POSTed form
(`posted = some sub`) overwrite the mutable fields and redirect to the
details page; on an invalid POST or a GET (`posted = none`) re-render the
edit form without touching the store. -/
def job_edit (store : List Job) (job_id : Nat) (posted : Option Submission) :
    List Job × EditResponse :=
  match getById store job_id with
  | none => (store, EditResponse.notFound404)
  | some _ =>
      match posted with
      | some sub =>
          if validateJobForm sub then
            (updateFirst store job_id sub, EditResponse.redirectToDetails job_id)
          else (store, EditResponse.renderEditForm)
      | none => (store, EditResponse.renderEditForm)

/-- Handler `health_live` (GET `/healthz/live`): ignores the store entirely.
The argument records whether the store is reachable, to express that the
response does not depend on it. -/
def health_live (_storeReachable : Bool) : String × Nat := ("OK", 200)

/-- Handler `health_readiness` (GET `/healthz/readiness`): runs `SELECT 1`
against the store; any exception is caught and turned into 500 "Not Ready",
never propagated. -/
def health_readiness (storeReachable : Bool) : String × Nat :=
  if storeReachable then ("OK", 200) else ("Not Ready", 500)

/-- Body of handler `test_page` (GET `/testpage`). -/
def test_page : String := "This page is only a test"

/-- Every (method, path) pair registered on the Flask app in app.py.
Routes with `methods=["GET", "POST"]` contribute both verbs; plain
`@app.route` contributes GET. -/
def appRoutes : List (String × String) :=
  [("GET", "/"),
   ("GET", "/jobs"),
   ("GET", "/add-job"), ("POST", "/add-job"),
   ("GET", "/job/<int:job_id>"),
   ("GET", "/job/<int:job_id>/edit"), ("POST", "/job/<int:job_id>/edit"),
   ("GET", "/testpage"),
   ("GET", "/healthz/live"),
   ("GET", "/healthz/readiness")]

/-- The eight routes the spec's handler table lists: six user-facing
operations and two health operations. -/
def specListedRoutes : List (String × String) :=
  [("GET", "/"),
   ("GET", "/jobs"),
   ("GET", "/add-job"), ("POST", "/add-job"),
   ("GET", "/job/<int:job_id>"),
   ("GET", "/job/<int:job_id>/edit"), ("POST", "/job/<int:job_id>/edit"),
   ("GET", "/healthz/live"),
   ("GET", "/healthz/readiness")]

/-- Concrete fixture: a stored row (the spec's §8 example record). -/
def demoJob : Job :=
  { id := 1
  , application_date := 738535
  , status := "Interviewing"
  , company := "Acme"
  , position := "Engineer"
  , resume_used := "Default Resume"
  , job_url := none
  , job_description := none
  , notes := none
  , salary := none
  , created_at := 100 }

/-- Concrete fixture: a one-row store. -/
def demoStore : List Job := [demoJob]

/-- Concrete fixture: a submission that passes `validateJobForm`. -/
def validSub : Submission :=
  { application_date := some 738600
  , status := "Rejected Application"
  , company := "Acme"
  , position := "Engineer"
  , resume_used := "Default Resume"
  , job_url := some "https://example.com/req"
  , job_description := none
  , notes := some "followed up"
  , salary := some "100k" }

/-- Concrete fixture: a submission with a required field (`company`) empty,
which `validateJobForm` rejects. -/
def invalidSub : Submission :=
  { application_date := some 738600
  , status := "Interviewing"
  , company := ""
  , position := "Engineer"
  , resume_used := "Default Resume"
  , job_url := none
  , job_description := none
  , notes := none
  , salary := none }

/-! Helper lemmas about the store operations. -/

theorem getById_cons (k : Job) (store : List Job) (job_id : Nat) :
    getById (k :: store) job_id =
      if k.id = job_id then some k else getById store job_id := by
  by_cases h : k.id = job_id <;> simp [getById, List.find?_cons, h]

theorem id_le_maxId (store : List Job) :
    ∀ j ∈ store, j.id ≤ store.foldr (fun j m => max j.id m) 0 := by
  induction store with
  | nil => intro j hj; cases hj
  | cons k rest ih =>
      intro j hj
      rcases List.mem_cons.mp hj with h | h
      · subst h; exact Nat.le_max_left _ _
      · exact le_trans (ih j h) (Nat.le_max_right _ _)

theorem id_lt_nextId {store : List Job} {j : Job} (h : j ∈ store) :
    j.id < nextId store :=
  Nat.lt_succ_of_le (id_le_maxId store j h)

theorem getById_append_fresh (store : List Job) (j : Job)
    (h : ∀ k ∈ store, k.id ≠ j.id) :
    getById (store ++ [j]) j.id = some j := by
  induction store with
  | nil => simp [getById, List.find?]
  | cons k rest ih =>
      have hk : k.id ≠ j.id := h k (List.mem_cons_self k rest)
      rw [List.cons_append, getById_cons, if_neg hk]
      exact ih (fun x hx => h x (List.mem_cons_of_mem k hx))

theorem getById_updateFirst (store : List Job) (job_id : Nat)
    (sub : Submission) (j : Job) (h : getById store job_id = some j) :
    getById (updateFirst store job_id sub) job_id = some (applyForm j sub) := by
  induction store with
  | nil => simp [getById, List.find?] at h
  | cons k rest ih =>
      rw [getById_cons] at h
      by_cases hk : k.id = job_id
      · rw [if_pos hk] at h
        injection h with hkj
        rw [updateFirst, if_pos hk, getById_cons,
          if_pos ((rfl : (applyForm k sub).id = k.id).trans hk), hkj]
      · rw [if_neg hk] at h
        rw [updateFirst, if_neg hk, getById_cons, if_neg hk]
        exact ih h

theorem updateFirst_length (store : List Job) (job_id : Nat)
    (sub : Submission) :
    (updateFirst store job_id sub).length = store.length := by
  induction store with
  | nil => rfl
  | cons k rest ih =>
      rw [updateFirst]
      by_cases hk : k.id = job_id
      · rw [if_pos hk]; rfl
      · rw [if_neg hk]; simpa using ih

theorem mem_updateFirst_of_ne (store : List Job) (job_id : Nat)
    (sub : Submission) (k : Job) (hk : k ∈ store) (hne : k.id ≠ job_id) :
    k ∈ updateFirst store job_id sub := by
  induction store with
  | nil => cases hk
  | cons x rest ih =>
      rcases List.mem_cons.mp hk with h | h
      · subst h
        rw [updateFirst, if_neg hne]
        exact List.mem_cons_self _ _
      · rw [updateFirst]
        by_cases hx : x.id = job_id
        · rw [if_pos hx]; exact List.mem_cons_of_mem _ h
        · rw [if_neg hx]; exact List.mem_cons_of_mem _ (ih h)

/-! Claim theorems. -/

/-- C1: a valid Add submission inserts a row under the fresh id, redirects
to the jobs list, and a Details fetch by that id returns exactly the
submitted field values, with `id` assigned and `created_at` set to the
server timestamp. -/
theorem add_then_details_roundtrip (store : List Job) (now : Nat)
    (sub : Submission) (d : Nat)
    (hvalid : validateJobForm sub = true)
    (hdate : sub.application_date = some d) :
    (add_job store now sub).2 = AddResponse.redirectToJobs ∧
    job_details (add_job store now sub).1 (nextId store) =
      DetailsResponse.showJob
        { id := nextId store
        , application_date := d
        , status := sub.status
        , company := sub.company
        , position := sub.position
        , resume_used := sub.resume_used
        , job_url := sub.job_url
        , job_description := sub.job_description
        , notes := sub.notes
        , salary := sub.salary
        , created_at := now } := by
  have hstore : (add_job store now sub).1 = store ++ [newJobOf store now sub] := by
    simp [add_job, hvalid]
  have hfresh : ∀ k ∈ store, k.id ≠ (newJobOf store now sub).id := by
    intro k hk
    exact Nat.ne_of_lt (id_lt_nextId hk)
  have hget : getById (store ++ [newJobOf store now sub]) (nextId store)
      = some (newJobOf store now sub) :=
    getById_append_fresh store (newJobOf store now sub) hfresh
  constructor
  · simp [add_job, hvalid]
  · rw [hstore, job_details, hget]
    simp [newJobOf, hdate]

/-- C1 witness: adding the valid fixture submission to the one-row fixture
store makes Details at the fresh id 2 return the submitted values. -/
theorem add_then_details_roundtrip_witness :
    (add_job demoStore 200 validSub).2 = AddResponse.redirectToJobs ∧
    job_details (add_job demoStore 200 validSub).1 (nextId demoStore) =
      DetailsResponse.showJob
        { id := nextId demoStore
        , application_date := 738600
        , status := validSub.status
        , company := validSub.company
        , position := validSub.position
        , resume_used := validSub.resume_used
        , job_url := validSub.job_url
        , job_description := validSub.job_description
        , notes := validSub.notes
        , salary := validSub.salary
        , created_at := 200 } :=
  add_then_details_roundtrip demoStore 200 validSub 738600 (by rfl) rfl

/-- C2: an invalid submission (here: any submission `validateJobForm`
rejects, i.e. a required field missing or an enumerated field outside its
choices) creates no row on Add and modifies no row on Edit; both handlers
re-render the form instead of redirecting. -/
theorem invalid_submission_no_change (store : List Job) (now : Nat)
    (sub : Submission) (job_id : Nat)
    (hinvalid : validateJobForm sub = false) :
    add_job store now sub = (store, AddResponse.renderAddForm) ∧
    ∀ j, getById store job_id = some j →
      job_edit store job_id (some sub) = (store, EditResponse.renderEditForm) := by
  constructor
  · simp [add_job, hinvalid]
  · intro j hj
    simp [job_edit, hj, hinvalid]

/-- C2 witness: the fixture submission with an empty `company` leaves the
fixture store untouched on both Add and Edit and re-renders the form. -/
theorem invalid_submission_no_change_witness :
    add_job demoStore 200 invalidSub = (demoStore, AddResponse.renderAddForm) ∧
    job_edit demoStore 1 (some invalidSub) = (demoStore, EditResponse.renderEditForm) := by
  have h := invalid_submission_no_change demoStore 200 invalidSub 1 (by rfl)
  exact ⟨h.1, h.2 demoJob (by rfl)⟩

/-- C7: for an id not in the store, Details, Edit (show) and Edit (submit)
all answer 404 and leave the store unchanged; no branch raises. -/
theorem not_found_handling (store : List Job) (job_id : Nat)
    (posted : Option Submission)
    (habsent : getById store job_id = none) :
    job_details store job_id = DetailsResponse.notFound404 ∧
    job_edit store job_id posted = (store, EditResponse.notFound404) := by
  constructor
  · simp [job_details, habsent]
  · simp [job_edit, habsent]

/-- C7 witness: id 99 is absent from the fixture store; Details and Edit
both answer 404 and the store is returned unchanged. -/
theorem not_found_handling_witness :
    job_details demoStore 99 = DetailsResponse.notFound404 ∧
    job_edit demoStore 99 (some validSub) = (demoStore, EditResponse.notFound404) :=
  not_found_handling demoStore 99 (some validSub) (by rfl)

/-- C8: liveness answers 200 "OK" whatever the store's reachability;
readiness answers 200 "OK" when the health query succeeds and 500
"Not Ready" (a 5xx status) when the store is unreachable. -/
theorem health_endpoints (storeReachable : Bool) :
    health_live storeReachable = ("OK", 200) ∧
    health_readiness true = ("OK", 200) ∧
    health_readiness false = ("Not Ready", 500) ∧
    (health_readiness false).2 / 100 = 5 :=
  ⟨rfl, rfl, rfl, rfl⟩

/-- C9 counterexample: the app registers GET `/testpage`, a route outside
the spec's table of six user-facing plus two health operations. -/
theorem testpage_route_outside_spec :
    ("GET", "/testpage") ∈ appRoutes ∧
    ("GET", "/testpage") ∉ specListedRoutes := by
  decide

/-- C9 amended: the app's routes are exactly the spec's eight listed routes
plus the extra GET `/testpage` test route. -/
theorem app_routes_are_spec_routes_plus_testpage :
    appRoutes.Perm (specListedRoutes ++ [("GET", "/testpage")]) := by
  decide

/-- C3: a valid Edit submission for an existing id redirects to Details
after overwriting exactly the nine form-backed fields of the fetched row;
its `id` and `created_at` are unchanged, the store keeps its length, and
rows with a different id are untouched. -/
theorem edit_changes_only_mutable_fields (store : List Job) (job_id : Nat)
    (sub : Submission) (j : Job) (d : Nat)
    (hfound : getById store job_id = some j)
    (hvalid : validateJobForm sub = true)
    (hdate : sub.application_date = some d) :
    job_edit store job_id (some sub) =
      (updateFirst store job_id sub, EditResponse.redirectToDetails job_id) ∧
    getById (updateFirst store job_id sub) job_id = some
      { id := j.id
      , application_date := d
      , status := sub.status
      , company := sub.company
      , position := sub.position
      , resume_used := sub.resume_used
      , job_url := sub.job_url
      , job_description := sub.job_description
      , notes := sub.notes
      , salary := sub.salary
      , created_at := j.created_at } ∧
    (updateFirst store job_id sub).length = store.length ∧
    ∀ k ∈ store, k.id ≠ job_id → k ∈ updateFirst store job_id sub := by
  refine ⟨?_, ?_, updateFirst_length store job_id sub,
    fun k hk hne => mem_updateFirst_of_ne store job_id sub k hk hne⟩
  · simp [job_edit, hfound, hvalid]
  · rw [getById_updateFirst store job_id sub j hfound]
    simp [applyForm, hdate]

/-- C3 witness: editing the fixture row with the valid fixture submission
redirects to Details and stores exactly the submitted fields under the old
id and creation timestamp. -/
theorem edit_changes_only_mutable_fields_witness :
    job_edit demoStore 1 (some validSub) =
      (updateFirst demoStore 1 validSub, EditResponse.redirectToDetails 1) ∧
    getById (updateFirst demoStore 1 validSub) 1 = some
      { id := demoJob.id
      , application_date := 738600
      , status := validSub.status
      , company := validSub.company
      , position := validSub.position
      , resume_used := validSub.resume_used
      , job_url := validSub.job_url
      , job_description := validSub.job_description
      , notes := validSub.notes
      , salary := validSub.salary
      , created_at := demoJob.created_at } := by
  have h := edit_changes_only_mutable_fields demoStore 1 validSub demoJob 738600
    (by rfl) (by rfl) rfl
  exact ⟨h.1, h.2.1⟩

/-- C4 counterexample: with the one-row fixture store and a present but
empty `status` parameter, the handler returns the fixture row even though
its status is not the empty string, so "present implies filtered by raw
equality" fails as stated. -/
theorem present_empty_filter_not_raw_equality :
    demoJob ∈ jobs demoStore (some "") ∧ demoJob.status ≠ "" := by
  constructor
  · simp [jobs, sortJobs, demoStore, List.insertionSort]
  · decide

/-- C4 amended: for a present and non-empty `status` parameter the handler
returns exactly the rows whose status equals it by raw string equality,
ordered by `application_date` descending, and an unmatched value yields the
empty list; an absent (or empty) parameter returns every record in the same
order. -/
theorem jobs_filter_semantics (store : List Job) (s : String)
    (hs : s ≠ "") :
    (∀ j ∈ jobs store (some s), j.status = s) ∧
    (jobs store (some s)).Perm (store.filter (fun j => j.status == s)) ∧
    List.Sorted jobGE (jobs store (some s)) ∧
    (jobs store none).Perm store ∧
    List.Sorted jobGE (jobs store none) ∧
    ((∀ j ∈ store, j.status ≠ s) → jobs store (some s) = []) := by
  have hbranch : jobs store (some s)
      = sortJobs (store.filter (fun j => j.status == s)) := by
    simp [jobs, hs]
  refine ⟨?_, ?_, ?_, ?_, ?_, ?_⟩
  · intro j hj
    rw [hbranch, sortJobs] at hj
    have := List.mem_filter.mp ((List.mem_insertionSort jobGE).mp hj)
    exact eq_of_beq this.2
  · rw [hbranch, sortJobs]
    exact List.perm_insertionSort jobGE _
  · rw [hbranch, sortJobs]
    exact List.sorted_insertionSort jobGE _
  · exact List.perm_insertionSort jobGE store
  · exact List.sorted_insertionSort jobGE store
  · intro hnone
    rw [hbranch]
    have hnil : store.filter (fun j => j.status == s) = [] :=
      List.filter_eq_nil_iff.mpr
        (fun j hj => by simpa using hnone j hj)
    rw [hnil]
    rfl

/-- C4 witness: no row of the fixture store has status "Archived", and the
filtered listing for that value is the empty list. -/
theorem jobs_filter_semantics_witness :
    jobs demoStore (some "Archived") = [] :=
  (jobs_filter_semantics demoStore "Archived" (by decide)).2.2.2.2.2 (by decide)

theorem orderedInsert_filter_date (a : Job) (d : Nat) :
    ∀ l : List Job,
      (List.orderedInsert jobGE a l).filter (fun j => j.application_date == d)
        = if a.application_date = d
          then a :: l.filter (fun j => j.application_date == d)
          else l.filter (fun j => j.application_date == d)
  | [] => by
      by_cases h : a.application_date = d <;>
        simp [List.orderedInsert, List.filter_cons, h]
  | b :: l => by
      by_cases hab : jobGE a b
      · rw [List.orderedInsert, if_pos hab]
        by_cases h : a.application_date = d <;>
          simp [List.filter_cons, h]
      · have hlt : a.application_date < b.application_date :=
          Nat.lt_of_not_le hab
        rw [List.orderedInsert, if_neg hab, List.filter_cons,
          orderedInsert_filter_date a d l, List.filter_cons]
        by_cases ha : a.application_date = d
        · have hb : ¬ b.application_date = d := by omega
          simp [ha, hb]
        · simp [ha]

theorem sortJobs_filter_date (store : List Job) (d : Nat) :
    (sortJobs store).filter (fun j => j.application_date == d)
      = store.filter (fun j => j.application_date == d) := by
  induction store with
  | nil => rfl
  | cons a l ih =>
      have hstep : sortJobs (a :: l) = List.orderedInsert jobGE a (sortJobs l) := rfl
      rw [hstep, orderedInsert_filter_date, ih, List.filter_cons]
      by_cases ha : a.application_date = d <;> simp [ha]

/-- C5: the dashboard reports the total record count, and its recent list
is the first five entries of the store sorted descending by
`application_date` with ties kept in insertion order: the sort is a
permutation of the store, sorted under `jobGE`, and restricting it to any
single date returns the store's rows of that date in insertion order. -/
theorem dashboard_recent_five (store : List Job) :
    (home store).total_jobs = store.length ∧
    (home store).recent_jobs = (sortJobs store).take 5 ∧
    (sortJobs store).Perm store ∧
    List.Sorted jobGE (sortJobs store) ∧
    (home store).recent_jobs.length = min 5 store.length ∧
    List.Sorted jobGE (home store).recent_jobs ∧
    ∀ d, (sortJobs store).filter (fun j => j.application_date == d)
        = store.filter (fun j => j.application_date == d) := by
  refine ⟨rfl, rfl, List.perm_insertionSort jobGE store,
    List.sorted_insertionSort jobGE store, ?_, ?_,
    fun d => sortJobs_filter_date store d⟩
  · show ((sortJobs store).take 5).length = min 5 store.length
    rw [List.length_take, sortJobs, List.length_insertionSort]
  · exact List.Pairwise.sublist (List.take_sublist 5 _)
      (List.sorted_insertionSort jobGE store)

/-- C6: under the data-model invariant that every stored status lies in the
closed enumeration, the dashboard's status-count mapping has an entry for a
status exactly when at least one record carries it. -/
theorem status_entry_iff_record_exists (store : List Job)
    (hinv : ∀ j ∈ store, j.status ∈ statusValues) (s : String) :
    (∃ c, (s, c) ∈ (home store).status_counts) ↔ ∃ j ∈ store, j.status = s := by
  constructor
  · rintro ⟨c, hc⟩
    have hc' : (s, c) ∈ statuses store := hc
    rw [statuses, List.mem_filterMap] at hc'
    obtain ⟨a, _, hfa⟩ := hc'
    dsimp only at hfa
    by_cases hpos : 0 < (store.filter (fun j => j.status == a)).length
    · rw [if_pos hpos] at hfa
      injection hfa with hfa'
      have has : a = s := congrArg Prod.fst hfa'
      subst has
      obtain ⟨j, hj⟩ := List.exists_mem_of_length_pos hpos
      have := List.mem_filter.mp hj
      exact ⟨j, this.1, eq_of_beq this.2⟩
    · rw [if_neg hpos] at hfa
      cases hfa
  · rintro ⟨j, hj, hsj⟩
    have hsv : s ∈ statusValues := hsj ▸ hinv j hj
    have hjf : j ∈ store.filter (fun x => x.status == s) :=
      List.mem_filter.mpr ⟨hj, by simp [hsj]⟩
    have hpos : 0 < (store.filter (fun x => x.status == s)).length :=
      List.length_pos_of_mem hjf
    refine ⟨(store.filter (fun x => x.status == s)).length, ?_⟩
    have : (s, (store.filter (fun x => x.status == s)).length) ∈ statuses store := by
      rw [statuses, List.mem_filterMap]
      exact ⟨s, hsv, by simp [hpos]⟩
    exact this

/-- C6 witness: the fixture store has an entry for "Interviewing" and no
entry for "Rejected Application", matching which statuses occur in it. -/
theorem status_entry_iff_record_exists_witness :
    (∃ c, ("Interviewing", c) ∈ (home demoStore).status_counts) ∧
    ¬ ∃ c, ("Rejected Application", c) ∈ (home demoStore).status_counts :=
  ⟨(status_entry_iff_record_exists demoStore (by decide) "Interviewing").mpr
      ⟨demoJob, by decide, rfl⟩,
   fun h =>
    (by decide : ¬ ∃ j ∈ demoStore, j.status = "Rejected Application")
      ((status_entry_iff_record_exists demoStore (by decide)
        "Rejected Application").mp h)⟩

/-- C10: a present-but-empty `status` query parameter takes the same branch
as an absent one (Python truthiness), so every record is returned. -/
theorem empty_status_filter_lists_all (store : List Job) :
    jobs store (some "") = jobs store none ∧
    (jobs store (some "")).Perm store :=
  ⟨rfl, List.perm_insertionSort jobGE store⟩

end JobTracker
